import Mathlib

/-!
# Shallow embedding of the cellm game engine (`src/engine/GameEngine.ts`)

This file embeds the normative (fully-featured, battle-capable) variant of
`GameEngine` together with the parts of the data model from
`src/engine/types.ts` that the engine logic reads, and proves properties of
the embedded operations.

Modelling conventions:
* JS numbers are modelled as `ℚ` (all arithmetic the engine performs on unit
  counts, progress values and durations is field arithmetic plus `min`, `max`
  and `Math.floor`).
* `generateId` produces random string identifiers in the source; identifier
  content is never inspected, only compared for equality, so ids are modelled
  as naturals drawn from a fresh counter `nextId` threaded through the state.
* `Date.now()` is modelled by an explicit `now : ℚ` argument (milliseconds);
  all reads of the clock within one tick observe the same value.
* Fields attached dynamically via `(x as any)` (`initialUnitCount`,
  `joinProgress`, `joinTime` on units; `initialAttackerUnits`,
  `initialDefenderUnits` on battles) are modelled as `Option ℚ`, and every
  JS read of the form `value || fallback` is modelled by `jsOr`, which takes
  the fallback when the field is absent or equal to `0` (JS falsiness).
* `array.find(...)` is modelled by first-match lookup, and mutation of the
  found object by updating the first matching entry of the list.
  JS object identity (e.g. `battle.attackers.includes(u)`) is modelled by id
  equality; generated ids are unique by construction of the counter.
* Display-only geometry is omitted: `position`, `battlePosition` and the
  Bézier position interpolation never feed back into unit counts, ownership,
  battles or events, and `calculateBattlePosition` uses `Math.cos` and
  `Math.sin`, which have no exact rational embedding.  For the same reason
  the dead `distance` computation in `sendUnits` (computed but never used in
  the normative variant) is omitted.
-/

namespace Cellm

/-- `src/engine/types.ts` `CellType` — the fields the engine reads.
`name` and the `special` flags are never read by engine logic. -/
structure CellType where
  ctId : ℕ
  productionMultiplier : ℚ
  defenseBonus : ℚ
  maxUnits : Option ℚ
  deriving DecidableEq, Repr

/-- `src/engine/types.ts` `Cell` — the fields the engine reads
(display position omitted, see module comment). -/
structure Cell where
  id : ℕ
  units : ℚ
  owner : String
  ctype : CellType
  deriving DecidableEq, Repr

/-- `src/engine/types.ts` `Unit` (named `TransitUnit` here because `Unit` is
reserved in Lean), including the dynamically attached battle fields. -/
structure TransitUnit where
  id : ℕ
  owner : String
  targetCellId : ℕ
  unitCount : ℚ
  progress : ℚ
  travelSpeed : ℚ
  battleState : Option String := none
  initialUnitCount : Option ℚ := none
  joinProgress : Option ℚ := none
  joinTime : Option ℚ := none
  deriving DecidableEq, Repr

/-- `src/engine/types.ts` `Path` (colour/thickness are display-only).
`ptype` is the curve kind `straight`/`curved`. -/
structure Path where
  id : ℕ
  sourceCellId : ℕ
  targetCellId : ℕ
  owner : String
  active : Bool
  ptype : String
  deriving DecidableEq, Repr

/-- `src/engine/types.ts` `Battle`, including the dynamically attached
initial-force snapshots. -/
structure Battle where
  id : ℕ
  cellId : ℕ
  attackers : List TransitUnit
  defenderUnits : ℚ
  defenderOwner : String
  startTime : ℚ
  duration : ℚ
  progress : ℚ
  initialAttackerUnits : Option ℚ := none
  initialDefenderUnits : Option ℚ := none
  deriving DecidableEq, Repr

/-- `src/engine/types.ts` `GameState`.  `nextId` models the `generateId`
source of fresh identifiers (see module comment). -/
structure GameState where
  cells : List Cell
  units : List TransitUnit
  paths : List Path
  battles : List Battle
  currentPlayer : String
  turn : ℕ
  gamePhase : String
  winner : Option String := none
  nextId : ℕ := 0
  deriving DecidableEq, Repr

/-- JS `a || b` for a possibly-missing numeric field `a`: the fallback is
taken when the field is absent or `0` (both falsy in JS). -/
def jsOr (a : Option ℚ) (b : ℚ) : ℚ :=
  match a with
  | none => b
  | some x => if x = 0 then b else x

/-- JS `a || b` for a present numeric value (`targetCell.type.defenseBonus || 1`). -/
def jsOrNum (a b : ℚ) : ℚ :=
  if a = 0 then b else a

/-- `this.state.cells.find(c => c.id === cid)` — first cell with the id. -/
def findCell (cells : List Cell) (cid : ℕ) : Option Cell :=
  match cells with
  | [] => none
  | c :: rest => if c.id = cid then some c else findCell rest cid

/-- `this.state.battles.find(b => b.cellId === cid)` — first battle at the cell. -/
def findBattleAt (battles : List Battle) (cid : ℕ) : Option Battle :=
  match battles with
  | [] => none
  | b :: rest => if b.cellId = cid then some b else findBattleAt rest cid

/-- `this.state.paths.find(p => p.sourceCellId === s && p.targetCellId === t)`. -/
def findPath (paths : List Path) (s t : ℕ) : Option Path :=
  match paths with
  | [] => none
  | p :: rest =>
    if p.sourceCellId = s ∧ p.targetCellId = t then some p else findPath rest s t

/-- In-place mutation of the first cell `find` located, as a list update:
apply `f` to the first cell whose id is `cid`, leave the rest unchanged. -/
def updateFirstCell (cells : List Cell) (cid : ℕ) (f : Cell → Cell) : List Cell :=
  match cells with
  | [] => []
  | c :: rest =>
    if c.id = cid then f c :: rest else c :: updateFirstCell rest cid f

/-- In-place mutation of the first battle at a given cell id, as a list update. -/
def updateFirstBattle (battles : List Battle) (cid : ℕ) (f : Battle → Battle) :
    List Battle :=
  match battles with
  | [] => []
  | b :: rest =>
    if b.cellId = cid then f b :: rest else b :: updateFirstBattle rest cid f

/-- In-place mutation of the first path between a source and a target, as a
list update (`path.active = true` on the path `find` located). -/
def updateFirstPath (paths : List Path) (s t : ℕ) (f : Path → Path) : List Path :=
  match paths with
  | [] => []
  | p :: rest =>
    if p.sourceCellId = s ∧ p.targetCellId = t then f p :: rest
    else p :: updateFirstPath rest s t f

/-- `GameEngine.calculateBattleDuration` (normative variant, lines 1217-1233):
result in seconds. -/
def calculateBattleDuration (attackerUnits defenderUnits : ℚ) : ℚ :=
  let ratio := max (attackerUnits / defenderUnits) (defenderUnits / attackerUnits)
  let minDuration : ℚ := 4
  let maxDuration : ℚ := 10
  if 2 ≤ ratio then minDuration
  else minDuration + (maxDuration - minDuration) * (2 - ratio) / 1

/-- `GameEngine.sendUnits` (normative variant, lines 980-1030).
`unitSpeed` is `this.config.unitSpeed`; `rand` is the `Math.random() > 0.5`
draw used for a newly created path's curve kind.  Returns the boolean
result, the updated state and the emitted event types. -/
def sendUnits (st : GameState) (sourceCellId targetCellId : ℕ) (unitCount : ℚ)
    (unitSpeed : ℚ) (rand : Bool) : Bool × GameState × List String :=
  match findCell st.cells sourceCellId, findCell st.cells targetCellId with
  | some sourceCell, some _ =>
    if sourceCell.units < unitCount then (false, st, [])
    else
      let cells := updateFirstCell st.cells sourceCellId
        (fun c => { c with units := c.units - unitCount })
      let targetTravelTime : ℚ := 5/2
      let travelSpeed := 1 / (targetTravelTime * unitSpeed)
      let unit : TransitUnit :=
        { id := st.nextId
          owner := sourceCell.owner
          targetCellId := targetCellId
          unitCount := unitCount
          progress := 0
          travelSpeed := travelSpeed }
      match findPath st.paths sourceCellId targetCellId with
      | some _ =>
        let paths := updateFirstPath st.paths sourceCellId targetCellId
          (fun p => { p with active := true })
        (true,
         { st with cells := cells, paths := paths,
                   units := st.units ++ [unit], nextId := st.nextId + 1 },
         ["units_sent"])
      | none =>
        let path : Path :=
          { id := st.nextId + 1
            sourceCellId := sourceCellId
            targetCellId := targetCellId
            owner := sourceCell.owner
            active := true
            ptype := if rand then "curved" else "straight" }
        (true,
         { st with cells := cells, paths := st.paths ++ [path],
                   units := st.units ++ [unit], nextId := st.nextId + 2 },
         ["units_sent"])
  | _, _ => (false, st, [])

/-- `(attacker as any).joinProgress || 0`. -/
def attackerJoinProgress (a : TransitUnit) : ℚ :=
  jsOr a.joinProgress 0

/-- `(attacker as any).initialUnitCount || attacker.unitCount`. -/
def attackerInitialUnits (a : TransitUnit) : ℚ :=
  jsOr a.initialUnitCount a.unitCount

/-- One attacker's contribution to `totalCurrentAttackers` in
`processBattleDamage`: its initial units weighted by its ramp-up
participation `min(1, max(0, progress − joinProgress) / 0.1)`. -/
def attackerCurrentForce (progress : ℚ) (a : TransitUnit) : ℚ :=
  attackerInitialUnits a *
    min 1 (max 0 (progress - attackerJoinProgress a) / (1/10))

/-- The per-attacker update of the `processBattleDamage` loop: a unit whose
`timeInBattle` is still 0 keeps its initial count; otherwise its count is
interpolated toward its share of the final attacker survivors (`tc` is
`totalCurrentAttackers`, `fs` is `finalAttackerSurvivors`). -/
def damageAttacker (progress tc fs : ℚ) (attacker : TransitUnit) : TransitUnit :=
  let joinProgress := attackerJoinProgress attacker
  let initialUnits := attackerInitialUnits attacker
  let timeInBattle := max 0 (progress - joinProgress)
  if timeInBattle ≤ 0 then
    { attacker with unitCount := initialUnits }
  else
    let battleDamageProgress :=
      min 1 (timeInBattle / max (1/10) (1 - joinProgress))
    if 0 < tc then
      let unitSurvivalRate := fs / tc
      let finalUnits := initialUnits * unitSurvivalRate
      let newCount :=
        max 0 (initialUnits - (initialUnits - finalUnits) * battleDamageProgress)
      { attacker with unitCount := newCount }
    else attacker

/-- `GameEngine.processBattleDamage` (normative variant, lines 1272-1340):
updates the battle's `defenderUnits` and each attacker's `unitCount`
according to the linear interpolation toward the analytically determined
final survivor counts.  (The loop also accumulates `totalInitialAttackers`,
which the source never reads afterwards.)  If the target cell is missing,
the battle is returned unchanged. -/
def processBattleDamage (cells : List Cell) (battle : Battle) : Battle :=
  match findCell cells battle.cellId with
  | none => battle
  | some targetCell =>
    let totalCurrentAttackers :=
      (battle.attackers.map (attackerCurrentForce battle.progress)).sum
    let initialDefenders := jsOr battle.initialDefenderUnits targetCell.units
    let defenseBonus := jsOrNum targetCell.ctype.defenseBonus 1
    let effectiveDefenders := initialDefenders * defenseBonus
    let finalAttackerSurvivors :=
      max 0 (if effectiveDefenders < totalCurrentAttackers then
               totalCurrentAttackers - effectiveDefenders
             else 0)
    let finalDefenderSurvivors :=
      max 0 (if effectiveDefenders < totalCurrentAttackers then 0
             else initialDefenders - totalCurrentAttackers / defenseBonus)
    let progress := battle.progress
    let currentDefenders :=
      initialDefenders - (initialDefenders - finalDefenderSurvivors) * progress
    let newAttackers := battle.attackers.map
      (damageAttacker battle.progress totalCurrentAttackers finalAttackerSurvivors)
    { battle with defenderUnits := max 0 currentDefenders, attackers := newAttackers }

/-- The distinct attacker owners in order of first appearance — the key set
of the `attackersByOwner` map built in `resolveBattle` (JS `Map` preserves
insertion order). -/
def factionOwners (attackers : List TransitUnit) : List String :=
  attackers.foldl
    (fun acc a => if a.owner ∈ acc then acc else acc ++ [a.owner]) []

/-- One attacker's contribution to its faction's effective force in
`resolveBattle`: `timeInBattle = max(0, 1 − joinProgress)` weighted by the
ramp-up `min(1, timeInBattle / 0.1)`. -/
def attackerEffectiveForce (a : TransitUnit) : ℚ :=
  attackerInitialUnits a * min 1 (max 0 (1 - attackerJoinProgress a) / (1/10))

/-- A faction's effective (participation-weighted) force in `resolveBattle`. -/
def factionEffective (attackers : List TransitUnit) (o : String) : ℚ :=
  ((attackers.filter (fun a => decide (a.owner = o))).map attackerEffectiveForce).sum

/-- A faction's surviving force in `resolveBattle`: the sum of its
attackers' current unit counts. -/
def factionSurviving (attackers : List TransitUnit) (o : String) : ℚ :=
  ((attackers.filter (fun a => decide (a.owner = o))).map (fun a => a.unitCount)).sum

/-- The combined effective force of all attacking factions, summed faction
by faction as in `resolveBattle`. -/
def totalEffectiveAttackers (attackers : List TransitUnit) : ℚ :=
  ((factionOwners attackers).map (factionEffective attackers)).sum

/-- The winner-selection loop of `resolveBattle`: starting from
`winningOwner = ''`, `winningForce = 0`, take each faction whose effective
force strictly exceeds the running maximum. -/
def pickWinner (fs : List (String × ℚ)) : String × ℚ :=
  fs.foldl (fun w f => if w.2 < f.2 then f else w) ("", 0)

/-- The first entry of the faction-force table for a given owner
(`factionForces.get(winningOwner)`). -/
def findFaction (fs : List (String × ℚ × ℚ)) (o : String) : Option (String × ℚ × ℚ) :=
  match fs with
  | [] => none
  | f :: rest => if f.1 = o then some f else findFaction rest o

/-- `factionForces.get(winningOwner)?.surviving || 0` in `resolveBattle`. -/
def winnerSurvivorsOf (fs : List (String × ℚ × ℚ)) (winningOwner : String) : ℚ :=
  match findFaction fs winningOwner with
  | some f => jsOrNum f.2.2 0
  | none => 0

/-- `GameEngine.resolveBattle` (normative variant, lines 1342-1423):
multi-faction resolution at the end of a battle.  Returns the updated state
(the battle itself is removed by `updateBattles`, not here) and the emitted
event types. -/
def resolveBattle (st : GameState) (battle : Battle) : GameState × List String :=
  match findCell st.cells battle.cellId with
  | none => (st, [])
  | some targetCell =>
    let owners := factionOwners battle.attackers
    let factionForces : List (String × ℚ × ℚ) :=
      owners.map (fun o =>
        (o, factionEffective battle.attackers o, factionSurviving battle.attackers o))
    let initialDefenders := jsOr battle.initialDefenderUnits targetCell.units
    let defenseBonus := jsOrNum targetCell.ctype.defenseBonus 1
    let effectiveDefenders := initialDefenders * defenseBonus
    let totalEffective := (factionForces.map (fun f => f.2.1)).sum
    let unitsAfter := st.units.filter
      (fun u => decide (∀ a ∈ battle.attackers, ¬ a.id = u.id))
    if effectiveDefenders < totalEffective then
      let w := pickWinner (factionForces.map (fun f => (f.1, f.2.1)))
      let winningOwner := w.1
      let winnerSurvivors := winnerSurvivorsOf factionForces winningOwner
      let cells := updateFirstCell st.cells battle.cellId
        (fun c => { c with owner := winningOwner,
                           units := max 1 ((⌊winnerSurvivors⌋ : ℤ) : ℚ) })
      ({ st with cells := cells, units := unitsAfter },
       ["cell_captured", "battle_ended"])
    else
      let cells := updateFirstCell st.cells battle.cellId
        (fun c => { c with units := max 1 ((⌊battle.defenderUnits⌋ : ℤ) : ℚ) })
      ({ st with cells := cells, units := unitsAfter }, ["battle_ended"])

/-- The body of the `updateBattles` loop for one battle: advance its
progress from the clock, apply damage, emit progress, and — when progress
reached 1 — resolve it (a resolved battle is not kept).  The accumulator
carries the state, the battles that survive this tick, and the events so far. -/
def updateBattlesStep (now : ℚ) (acc : GameState × List Battle × List String)
    (battle : Battle) : GameState × List Battle × List String :=
  let battle1 := { battle with
    progress := min 1 ((now - battle.startTime) / battle.duration) }
  let battle2 := processBattleDamage acc.1.cells battle1
  let evs := acc.2.2 ++ ["battle_progress"]
  if 1 ≤ battle2.progress then
    let r := resolveBattle acc.1 battle2
    (r.1, acc.2.1, evs ++ r.2)
  else
    (acc.1, acc.2.1 ++ [battle2], evs)

/-- `GameEngine.updateBattles` (normative variant, lines 1249-1270): advance
every battle's progress from the clock, apply damage, emit progress, and
resolve and drop battles whose progress reached 1. -/
def updateBattles (now : ℚ) (st : GameState) : GameState × List String :=
  let r := st.battles.foldl (updateBattlesStep now) (st, [], [])
  ({ r.1 with battles := r.2.1 }, r.2.2)

/-- `GameEngine.startOrJoinBattle` (normative variant, lines 1162-1215).
`now` is the `Date.now()` value observed during this tick. -/
def startOrJoinBattle (st : GameState) (now : ℚ) (unit : TransitUnit)
    (targetCell : Cell) : GameState × List String :=
  match findBattleAt st.battles targetCell.id with
  | some battle =>
    let unit := { unit with
      battleState := some "fighting"
      joinTime := some now
      initialUnitCount := some unit.unitCount
      joinProgress := some battle.progress }
    let battles := updateFirstBattle st.battles targetCell.id
      (fun b => { b with attackers := b.attackers ++ [unit] })
    ({ st with battles := battles }, ["battle_joined"])
  | none =>
    let unit := { unit with
      battleState := some "fighting"
      initialUnitCount := some unit.unitCount
      joinTime := some now
      joinProgress := some 0 }
    let battleDuration := calculateBattleDuration unit.unitCount targetCell.units
    let battle : Battle :=
      { id := st.nextId
        cellId := targetCell.id
        attackers := [unit]
        defenderUnits := targetCell.units
        defenderOwner := targetCell.owner
        startTime := now
        duration := battleDuration * 1000
        progress := 0
        initialDefenderUnits := some targetCell.units
        initialAttackerUnits := some unit.unitCount }
    ({ st with battles := st.battles ++ [battle], nextId := st.nextId + 1 },
     ["battle_started"])

/-- `GameEngine.reinforceDefenders` (normative variant, lines 1453-1468):
instantaneously add the arriving unit's count to both the battle's defender
pool and the cell, remove the unit from the transit list by id, and emit a
reinforcement event.  The cell and battle arguments of the source are the
objects found by `processUnitArrival`, i.e. the first cell with the target
id and the first battle at that cell. -/
def reinforceDefenders (st : GameState) (unit : TransitUnit) (cellId : ℕ) :
    GameState × List String :=
  let battles := updateFirstBattle st.battles cellId
    (fun b => { b with defenderUnits := b.defenderUnits + unit.unitCount })
  let cells := updateFirstCell st.cells cellId
    (fun c => { c with units := c.units + unit.unitCount })
  ({ st with battles := battles, cells := cells,
             units := st.units.filter (fun u => decide (¬ u.id = unit.id)) },
   ["defenders_reinforced"])

/-- `GameEngine.processUnitArrival` (normative variant, lines 1142-1160). -/
def processUnitArrival (st : GameState) (now : ℚ) (unit : TransitUnit) :
    GameState × List String :=
  match findCell st.cells unit.targetCellId with
  | none => (st, [])
  | some targetCell =>
    match findBattleAt st.battles targetCell.id with
    | none =>
      if targetCell.owner = unit.owner then
        let cells := updateFirstCell st.cells targetCell.id
          (fun c => { c with units := c.units + unit.unitCount })
        ({ st with cells := cells }, ["units_arrived"])
      else startOrJoinBattle st now unit targetCell
    | some _ =>
      if targetCell.owner = unit.owner then
        reinforceDefenders st unit targetCell.id
      else startOrJoinBattle st now unit targetCell

/-- `GameEngine.updateUnits` (normative variant, lines 1036-1095): advance
every transit unit's progress (clamped to 1), collect the arrivals, process
them in order, and drop arrived units from the transit list.  Position
interpolation is display-only and omitted (see module comment);
`hasMovement` only gates the `state_changed` event. -/
def updateUnits (st : GameState) (now dt : ℚ) : GameState × List String :=
  let moved := st.units.map (fun u =>
    match findCell st.cells u.targetCellId with
    | none => u
    | some _ => { u with progress := min 1 (u.progress + u.travelSpeed * dt) })
  let arrived := moved.filter (fun u =>
    (findCell st.cells u.targetCellId).isSome && decide (1 ≤ u.progress))
  let hasMovement := (st.units.zip moved).any (fun p =>
    decide (1/1000 < |p.2.progress - p.1.progress|))
  let afterMove := { st with units := moved }
  let r := arrived.foldl (fun (acc : GameState × List String) u =>
    let r2 := processUnitArrival acc.1 now u
    (r2.1, acc.2 ++ r2.2)) (afterMove, [])
  let final := { r.1 with units := r.1.units.filter (fun u => decide (u.progress < 1)) }
  (final, r.2 ++ (if hasMovement || ¬ arrived.isEmpty then ["state_changed"] else []))

/-- The first two phases of one iteration of the `start` game loop
(normative variant, lines 1501-1535): unit movement with arrival processing,
then battle advancement.  The later phases of the tick — periodic
production, periodic AI decisions and the win-condition check — never read
or write battles, so battle processing happens exactly in the second phase. -/
def movementAndBattlePhase (st : GameState) (now dt : ℚ) : GameState × List String :=
  let r1 := updateUnits st now dt
  let r2 := updateBattles now r1.1
  (r2.1, r1.2 ++ r2.2)

/-- `GameEngine.checkWinCondition` (normative variant, lines 1548-1561). -/
def checkWinCondition (st : GameState) : GameState × List String :=
  let playerCells := st.cells.filter (fun c => decide (c.owner = "player"))
  let enemyCells := st.cells.filter (fun c => decide (c.owner = "enemy"))
  if playerCells.length = 0 then
    ({ st with gamePhase := "ended", winner := some "enemy" }, ["game_ended"])
  else if enemyCells.length = 0 then
    ({ st with gamePhase := "ended", winner := some "player" }, ["game_ended"])
  else (st, [])

/-- The superseded first engine variant's `processBattleDamage`
(lines 340-393 of the repository file): unlike the normative variant it
reads the battle-level snapshots and returns without touching anything when
either snapshot is missing or zero (JS falsy guard
`if (!initialAttackers || !initialDefenders) return`). -/
def processBattleDamageV1 (cells : List Cell) (battle : Battle) : Battle :=
  match findCell cells battle.cellId with
  | none => battle
  | some targetCell =>
    if jsOr battle.initialAttackerUnits 0 = 0 ∨ jsOr battle.initialDefenderUnits 0 = 0 then
      battle
    else
      let initialAttackers := jsOr battle.initialAttackerUnits 0
      let initialDefenders := jsOr battle.initialDefenderUnits 0
      let defenseBonus := jsOrNum targetCell.ctype.defenseBonus 1
      let effectiveDefenders := initialDefenders * defenseBonus
      let finalAttackerSurvivors :=
        max 0 (if effectiveDefenders < initialAttackers then
                 initialAttackers - effectiveDefenders
               else 0)
      let finalDefenderSurvivors :=
        max 0 (if effectiveDefenders < initialAttackers then 0
               else initialDefenders - initialAttackers / defenseBonus)
      let progress := battle.progress
      let currentDefenders :=
        initialDefenders - (initialDefenders - finalDefenderSurvivors) * progress
      let currentAttackers :=
        initialAttackers - (initialAttackers - finalAttackerSurvivors) * progress
      let newAttackers :=
        if 0 < initialAttackers then
          battle.attackers.map (fun attacker =>
            if jsOr attacker.initialUnitCount 0 = 0 then attacker
            else
              let newCount :=
                max 0 (jsOr attacker.initialUnitCount 0 *
                  (currentAttackers / initialAttackers))
              { attacker with unitCount := newCount })
        else battle.attackers
      { battle with defenderUnits := max 0 currentDefenders, attackers := newAttackers }

/-! ## Concrete fixtures used by witnesses, counterexamples and scenarios -/

/-- A plain cell type: production 1, defense bonus 1, no cap. -/
def ctBasic : CellType :=
  { ctId := 0, productionMultiplier := 1, defenseBonus := 1, maxUnits := none }

/-- Scenario A: the attacking player's home cell. -/
def cellA : Cell := { id := 0, units := 4, owner := "player", ctype := ctBasic }

/-- Scenario A: the neutral target cell with 2 units. -/
def cellB : Cell := { id := 1, units := 2, owner := "neutral", ctype := ctBasic }

/-- Scenario A: a transit block of 6 player units about to arrive at `cellB`. -/
def unitA : TransitUnit :=
  { id := 2, owner := "player", targetCellId := 1, unitCount := 6,
    progress := 19/20, travelSpeed := 1 }

/-- Scenario A: the state at the start of the arrival tick. -/
def stA : GameState :=
  { cells := [cellA, cellB], units := [unitA], paths := [], battles := [],
    currentPlayer := "player", turn := 1, gamePhase := "playing", nextId := 3 }

/-- Scenario A: `unitA` after joining the new battle. -/
def unitA1 : TransitUnit :=
  { id := 2, owner := "player", targetCellId := 1, unitCount := 6,
    progress := 1, travelSpeed := 1, battleState := some "fighting",
    initialUnitCount := some 6, joinProgress := some 0, joinTime := some 0 }

/-- Scenario A: the battle created by `unitA`'s arrival at time 0. -/
def battleA : Battle :=
  { id := 3, cellId := 1, attackers := [unitA1], defenderUnits := 2,
    defenderOwner := "neutral", startTime := 0, duration := 4000, progress := 0,
    initialAttackerUnits := some 6, initialDefenderUnits := some 2 }

/-- Scenario A: the state right after the arrival tick. -/
def stA1 : GameState :=
  { cells := [cellA, cellB], units := [], paths := [], battles := [battleA],
    currentPlayer := "player", turn := 1, gamePhase := "playing", nextId := 4 }

/-- Scenario A: `cellB` captured by the player with 4 surviving units. -/
def cellB2 : Cell := { cellB with owner := "player", units := 4 }

/-- Scenario A: the state after the battle resolves at progress 1. -/
def stA2 : GameState := { stA1 with cells := [cellA, cellB2], battles := [] }

/-- Dispatch fixtures: a player source cell with 5 units. -/
def exSrc : Cell := { id := 0, units := 5, owner := "player", ctype := ctBasic }

/-- Dispatch fixtures: a neutral target cell. -/
def exTgt : Cell := { id := 1, units := 2, owner := "neutral", ctype := ctBasic }

/-- Dispatch fixtures: a two-cell state with nothing in transit. -/
def exSend : GameState :=
  { cells := [exSrc, exTgt], units := [], paths := [], battles := [],
    currentPlayer := "player", turn := 1, gamePhase := "playing", nextId := 10 }

/-- Conservation counterexample: a fractional attacker block of 0.5 units
that has fought to the end of its battle. -/
def unit5 : TransitUnit :=
  { id := 1, owner := "player", targetCellId := 0, unitCount := 1/2,
    progress := 1, travelSpeed := 1, battleState := some "fighting",
    initialUnitCount := some (1/2), joinProgress := some 0, joinTime := some 0 }

/-- Conservation counterexample: the tiny neutral cell under attack. -/
def cell5 : Cell := { id := 0, units := 1/10, owner := "neutral", ctype := ctBasic }

/-- Conservation counterexample: the battle about to be resolved
(duration 4000 ms matches `calculateBattleDuration (1/2) (1/10) = 4`). -/
def battle5 : Battle :=
  { id := 2, cellId := 0, attackers := [unit5], defenderUnits := 1/10,
    defenderOwner := "neutral", startTime := 0, duration := 4000, progress := 0,
    initialAttackerUnits := some (1/2), initialDefenderUnits := some (1/10) }

/-- Conservation counterexample: the state at the start of the resolution tick. -/
def st5 : GameState :=
  { cells := [cell5], units := [], paths := [], battles := [battle5],
    currentPlayer := "player", turn := 1, gamePhase := "playing", nextId := 3 }

/-- Missing-snapshot fixtures: a malformed battle with no snapshot data. -/
def unit7 : TransitUnit :=
  { id := 1, owner := "player", targetCellId := 0, unitCount := 6,
    progress := 1, travelSpeed := 1, battleState := some "fighting" }

/-- Missing-snapshot fixtures: the attacked cell. -/
def cell7 : Cell := { id := 0, units := 4, owner := "neutral", ctype := ctBasic }

/-- Missing-snapshot fixtures: a battle at half progress whose
`initialAttackerUnits` and `initialDefenderUnits` were never attached. -/
def battle7 : Battle :=
  { id := 2, cellId := 0, attackers := [unit7], defenderUnits := 4,
    defenderOwner := "neutral", startTime := 0, duration := 8000, progress := 1/2 }

/-- Reinforcement fixtures: a player cell under siege. -/
def cellR : Cell := { id := 0, units := 3, owner := "player", ctype := ctBasic }

/-- Reinforcement fixtures: an enemy attacker besieging `cellR`. -/
def unitRatk : TransitUnit :=
  { id := 4, owner := "enemy", targetCellId := 0, unitCount := 5,
    progress := 1, travelSpeed := 1, battleState := some "fighting",
    initialUnitCount := some 5, joinProgress := some 0, joinTime := some 0 }

/-- Reinforcement fixtures: the active battle at `cellR`. -/
def battleR : Battle :=
  { id := 3, cellId := 0, attackers := [unitRatk], defenderUnits := 3,
    defenderOwner := "player", startTime := 0, duration := 4000, progress := 1/4,
    initialAttackerUnits := some 5, initialDefenderUnits := some 3 }

/-- Reinforcement fixtures: a same-owner transit block arriving mid-battle. -/
def unitR : TransitUnit :=
  { id := 5, owner := "player", targetCellId := 0, unitCount := 2,
    progress := 1, travelSpeed := 1 }

/-- Reinforcement fixtures: the state at `unitR`'s arrival. -/
def stR : GameState :=
  { cells := [cellR], units := [unitR], paths := [], battles := [battleR],
    currentPlayer := "player", turn := 1, gamePhase := "playing", nextId := 6 }

/-- Win-check fixtures: an enemy cell and a third-faction cell, none owned by
the player. -/
def stWin : GameState :=
  { cells := [{ id := 0, units := 3, owner := "enemy", ctype := ctBasic },
              { id := 1, units := 7, owner := "faction3", ctype := ctBasic }],
    units := [], paths := [], battles := [],
    currentPlayer := "player", turn := 1, gamePhase := "playing", nextId := 2 }

end Cellm

namespace Cellm

/-! ## General lemmas about the list and lookup machinery -/

theorem jsOr_some_self (x : ℚ) : jsOr (some x) x = x := by
  simp only [jsOr]
  split <;> simp [*]

theorem jsOrNum_zero_right (x : ℚ) : jsOrNum x 0 = x := by
  simp only [jsOrNum]
  split <;> simp [*]

theorem findCell_of_decomp (pre post : List Cell) (c : Cell) (cid : ℕ)
    (hpre : ∀ x ∈ pre, x.id ≠ cid) (hc : c.id = cid) :
    findCell (pre ++ c :: post) cid = some c := by
  induction pre with
  | nil => simp [findCell, hc]
  | cons x xs ih =>
    have hx : x.id ≠ cid := hpre x (by simp)
    simp only [List.cons_append, findCell, if_neg hx]
    exact ih (fun y hy => hpre y (by simp [hy]))

theorem updateFirstCell_of_decomp (pre post : List Cell) (c : Cell) (cid : ℕ)
    (f : Cell → Cell) (hpre : ∀ x ∈ pre, x.id ≠ cid) (hc : c.id = cid) :
    updateFirstCell (pre ++ c :: post) cid f = pre ++ f c :: post := by
  induction pre with
  | nil => simp [updateFirstCell, hc]
  | cons x xs ih =>
    have hx : x.id ≠ cid := hpre x (by simp)
    simp only [List.cons_append, updateFirstCell, if_neg hx]
    exact congrArg (List.cons x) (ih (fun y hy => hpre y (by simp [hy])))

theorem findBattleAt_of_decomp (pre post : List Battle) (b : Battle) (cid : ℕ)
    (hpre : ∀ x ∈ pre, x.cellId ≠ cid) (hb : b.cellId = cid) :
    findBattleAt (pre ++ b :: post) cid = some b := by
  induction pre with
  | nil => simp [findBattleAt, hb]
  | cons x xs ih =>
    have hx : x.cellId ≠ cid := hpre x (by simp)
    simp only [List.cons_append, findBattleAt, if_neg hx]
    exact ih (fun y hy => hpre y (by simp [hy]))

theorem updateFirstBattle_of_decomp (pre post : List Battle) (b : Battle) (cid : ℕ)
    (f : Battle → Battle) (hpre : ∀ x ∈ pre, x.cellId ≠ cid) (hb : b.cellId = cid) :
    updateFirstBattle (pre ++ b :: post) cid f = pre ++ f b :: post := by
  induction pre with
  | nil => simp [updateFirstBattle, hb]
  | cons x xs ih =>
    have hx : x.cellId ≠ cid := hpre x (by simp)
    simp only [List.cons_append, updateFirstBattle, if_neg hx]
    exact congrArg (List.cons x) (ih (fun y hy => hpre y (by simp [hy])))

theorem findCell_updateFirstCell (cells : List Cell) (cid : ℕ) (f : Cell → Cell)
    (hid : ∀ x, (f x).id = x.id) :
    findCell (updateFirstCell cells cid f) cid = (findCell cells cid).map f := by
  induction cells with
  | nil => simp [findCell, updateFirstCell]
  | cons c rest ih =>
    by_cases h : c.id = cid
    · have h2 : (f c).id = cid := by rw [hid]; exact h
      simp [findCell, updateFirstCell, h, h2]
    · simp [findCell, updateFirstCell, h, ih]

/-! ## Lemmas about sums of rationals over lists -/

theorem listSum_nonpos (l : List ℚ) (h : ∀ x ∈ l, x ≤ 0) : l.sum ≤ 0 := by
  induction l with
  | nil => simp
  | cons x xs ih =>
    simp only [List.sum_cons]
    have h1 := h x (by simp)
    have h2 := ih (fun y hy => h y (by simp [hy]))
    linarith

theorem listSum_exists_pos (l : List ℚ) (h : 0 < l.sum) : ∃ x ∈ l, 0 < x := by
  by_contra hno
  push_neg at hno
  have := listSum_nonpos l hno
  linarith

theorem listSum_map_mono {α : Type} (l : List α) (f g : α → ℚ)
    (h : ∀ x ∈ l, f x ≤ g x) : (l.map f).sum ≤ (l.map g).sum := by
  induction l with
  | nil => simp
  | cons x xs ih =>
    simp only [List.map_cons, List.sum_cons]
    have h1 := h x (by simp)
    have h2 := ih (fun y hy => h y (by simp [hy]))
    linarith

theorem listSum_filter_le {α : Type} (l : List α) (p : α → Bool) (f : α → ℚ)
    (h : ∀ x ∈ l, 0 ≤ f x) :
    ((l.filter p).map f).sum ≤ (l.map f).sum := by
  induction l with
  | nil => simp
  | cons x xs ih =>
    have h1 := h x (by simp)
    have h2 := ih (fun y hy => h y (by simp [hy]))
    by_cases hp : p x
    · simp only [List.filter_cons, if_pos hp, List.map_cons, List.sum_cons]
      linarith
    · simp only [List.filter_cons, if_neg hp, List.map_cons, List.sum_cons]
      linarith

/-! ## Lemmas about the winner-selection fold of `resolveBattle` -/

theorem pickWinner_aux_ge_init (fs : List (String × ℚ)) (w0 : String × ℚ) :
    w0.2 ≤ (fs.foldl (fun w f => if w.2 < f.2 then f else w) w0).2 := by
  induction fs generalizing w0 with
  | nil => simp
  | cons f t ih =>
    simp only [List.foldl_cons]
    by_cases h : w0.2 < f.2
    · calc w0.2 ≤ f.2 := le_of_lt h
        _ ≤ _ := by simpa [h] using ih (if w0.2 < f.2 then f else w0)
    · simpa [h] using ih (if w0.2 < f.2 then f else w0)

theorem pickWinner_aux_ge_mem (fs : List (String × ℚ)) (w0 : String × ℚ)
    (f : String × ℚ) (hf : f ∈ fs) :
    f.2 ≤ (fs.foldl (fun w g => if w.2 < g.2 then g else w) w0).2 := by
  induction fs generalizing w0 with
  | nil => simp at hf
  | cons g t ih =>
    simp only [List.foldl_cons]
    rcases List.mem_cons.mp hf with hfg | hft
    · subst hfg
      by_cases h : w0.2 < f.2
      · simpa [h] using pickWinner_aux_ge_init t f
      · push_neg at h
        calc f.2 ≤ w0.2 := h
          _ ≤ _ := by simpa [not_lt.mpr h] using pickWinner_aux_ge_init t w0
    · exact ih (if w0.2 < g.2 then g else w0) hft

theorem pickWinner_aux_mem_or_init (fs : List (String × ℚ)) (w0 : String × ℚ) :
    (fs.foldl (fun w g => if w.2 < g.2 then g else w) w0) ∈ fs ∨
      (fs.foldl (fun w g => if w.2 < g.2 then g else w) w0) = w0 := by
  induction fs generalizing w0 with
  | nil => simp
  | cons g t ih =>
    simp only [List.foldl_cons]
    rcases ih (if w0.2 < g.2 then g else w0) with h | h
    · exact Or.inl (List.mem_cons_of_mem _ h)
    · by_cases hg : w0.2 < g.2
      · rw [h, if_pos hg]
        exact Or.inl (List.mem_cons_self _ _)
      · rw [h, if_neg hg]
        exact Or.inr rfl

/-! ## Lemmas about the faction grouping of `resolveBattle` -/

theorem factionOwners_aux_mem (l : List TransitUnit) (acc : List String) (o : String)
    (ho : o ∈ l.foldl
      (fun acc a => if a.owner ∈ acc then acc else acc ++ [a.owner]) acc) :
    o ∈ acc ∨ ∃ a ∈ l, a.owner = o := by
  induction l generalizing acc with
  | nil => exact Or.inl (by simpa using ho)
  | cons a t ih =>
    simp only [List.foldl_cons] at ho
    rcases ih _ ho with hacc | ⟨a2, ha2, hao⟩
    · by_cases h : a.owner ∈ acc
      · rw [if_pos h] at hacc
        exact Or.inl hacc
      · rw [if_neg h] at hacc
        rcases List.mem_append.mp hacc with h1 | h1
        · exact Or.inl h1
        · have ho2 : o = a.owner := by simpa using h1
          exact Or.inr ⟨a, by simp, ho2.symm⟩
    · exact Or.inr ⟨a2, by simp [ha2], hao⟩

theorem mem_factionOwners (attackers : List TransitUnit) (o : String)
    (ho : o ∈ factionOwners attackers) : ∃ a ∈ attackers, a.owner = o := by
  rcases factionOwners_aux_mem attackers [] o ho with h | h
  · simp at h
  · exact h

theorem findFaction_map (os : List String) (g : String → String × ℚ × ℚ)
    (hkey : ∀ o, (g o).1 = o) (o : String) (ho : o ∈ os) :
    findFaction (os.map g) o = some (g o) := by
  induction os with
  | nil => simp at ho
  | cons o0 t ih =>
    by_cases h : o0 = o
    · subst h
      simp [findFaction, hkey]
    · have hne : (g o0).1 ≠ o := by rw [hkey]; exact h
      simp only [List.map_cons, findFaction, if_neg hne]
      exact ih (by rcases List.mem_cons.mp ho with h1 | h1
                   · exact absurd h1.symm h
                   · exact h1)

/-- C3: for positive forces, `calculateBattleDuration` returns 4 when the
force ratio `max (a/d) (d/a)` is at least 2 and `4 + (10 − 4) × (2 − ratio)`
otherwise; the result always lies in `[4, 10]`, with ratio 1 giving 10,
ratio 2 giving 4 and ratio 5 giving 4. -/
theorem calculateBattleDuration_spec (a d : ℚ) (ha : 0 < a) (hd : 0 < d) :
    (2 ≤ max (a / d) (d / a) → calculateBattleDuration a d = 4) ∧
    (max (a / d) (d / a) < 2 →
      calculateBattleDuration a d = 4 + (10 - 4) * (2 - max (a / d) (d / a))) ∧
    4 ≤ calculateBattleDuration a d ∧ calculateBattleDuration a d ≤ 10 ∧
    (max (a / d) (d / a) = 1 → calculateBattleDuration a d = 10) ∧
    (max (a / d) (d / a) = 2 → calculateBattleDuration a d = 4) ∧
    (max (a / d) (d / a) = 5 → calculateBattleDuration a d = 4) := by
  have hratio1 : 1 ≤ max (a / d) (d / a) := by
    rcases le_total (a / d) 1 with h | h
    · have h1 : 1 ≤ d / a := by
        rw [le_div_iff₀ (by exact ha)]
        have := (div_le_one (by exact hd)).mp h
        linarith
      exact le_max_of_le_right h1
    · exact le_max_of_le_left h
  constructor
  · intro h2
    simp only [calculateBattleDuration, if_pos h2]
  refine ⟨?_, ?_, ?_, ?_, ?_, ?_⟩
  · intro h2
    simp only [calculateBattleDuration, if_neg (not_le.mpr h2)]
    ring
  · by_cases h2 : 2 ≤ max (a / d) (d / a)
    · simp only [calculateBattleDuration, if_pos h2]
      norm_num
    · simp only [calculateBattleDuration, if_neg h2]
      push_neg at h2
      nlinarith
  · by_cases h2 : 2 ≤ max (a / d) (d / a)
    · simp only [calculateBattleDuration, if_pos h2]
      norm_num
    · simp only [calculateBattleDuration, if_neg h2]
      nlinarith
  · intro h1
    have h2 : ¬ (2 ≤ max (a / d) (d / a)) := by rw [h1]; norm_num
    simp only [calculateBattleDuration, if_neg h2, h1]
    norm_num
  · intro h1
    simp only [calculateBattleDuration, if_pos (le_of_eq h1.symm)]
  · intro h1
    have h2 : (2:ℚ) ≤ max (a / d) (d / a) := by rw [h1]; norm_num
    simp only [calculateBattleDuration, if_pos h2]

/-- Witness for `calculateBattleDuration_spec` at `a = 6, d = 2`
(ratio 3, duration 4 seconds). -/
theorem calculateBattleDuration_spec_witness :
    calculateBattleDuration 6 2 = 4 := by
  have h := calculateBattleDuration_spec 6 2 (by norm_num) (by norm_num)
  exact h.1 (by norm_num)


/-- C2: `sendUnits` returns false, mutates nothing and emits no event when
either cell id is unknown or the source has fewer units than requested;
otherwise it returns true, debits the source cell by exactly `unitCount`
within the same call, and emits the dispatch event — never a partial debit
and never a debit on a false return. -/
theorem sendUnits_spec (st : GameState) (srcId tgtId : ℕ) (count speed : ℚ)
    (rand : Bool) :
    ((findCell st.cells srcId = none ∨ findCell st.cells tgtId = none ∨
        (∃ s, findCell st.cells srcId = some s ∧ s.units < count)) →
      sendUnits st srcId tgtId count speed rand = (false, st, [])) ∧
    (∀ s, findCell st.cells srcId = some s →
      (findCell st.cells tgtId).isSome = true → count ≤ s.units →
      (sendUnits st srcId tgtId count speed rand).1 = true ∧
      findCell (sendUnits st srcId tgtId count speed rand).2.1.cells srcId =
        some { s with units := s.units - count } ∧
      (sendUnits st srcId tgtId count speed rand).2.2 = ["units_sent"]) := by
  rcases hsrc : findCell st.cells srcId with _ | s
  · refine ⟨fun _ => by simp [sendUnits, hsrc], ?_⟩
    intro s2 hs2
    simp at hs2
  · rcases htgt : findCell st.cells tgtId with _ | t
    · refine ⟨fun _ => by simp [sendUnits, hsrc, htgt], ?_⟩
      intro s2 hs2 hti
      simp at hti
    · constructor
      · intro h
        rcases h with h | h | ⟨s2, hs2, hlt⟩
        · simp at h
        · simp at h
        · have hss : s2 = s := by injection hs2 with h2; exact h2.symm
          subst hss
          simp [sendUnits, hsrc, htgt, if_pos hlt]
      · intro s2 hs2 _ hle
        have hss : s2 = s := by injection hs2 with h2; exact h2.symm
        subst hss
        have hnl : ¬ s2.units < count := not_lt.mpr hle
        have hfind : findCell
            (updateFirstCell st.cells srcId (fun c => { c with units := c.units - count }))
            srcId = some { s2 with units := s2.units - count } := by
          rw [findCell_updateFirstCell st.cells srcId
            (fun c => { c with units := c.units - count }) (fun x => rfl), hsrc]
          rfl
        rcases hpath : findPath st.paths srcId tgtId with _ | p <;>
          simp [sendUnits, hsrc, htgt, if_neg hnl, hpath, hfind]


/-- Witness for `sendUnits_spec`: on `exSend`, dispatching from the unknown
cell id 5 fails with no state change, and dispatching 3 of the source's 5
units succeeds. -/
theorem sendUnits_spec_witness :
    sendUnits exSend 5 1 3 1 false = (false, exSend, []) ∧
    (sendUnits exSend 0 1 3 1 false).1 = true := by
  constructor
  · exact (sendUnits_spec exSend 5 1 3 1 false).1
      (Or.inl (by norm_num [findCell, exSend, exSrc, exTgt]))
  · exact ((sendUnits_spec exSend 0 1 3 1 false).2 exSrc
      (by norm_num [findCell, exSend, exSrc])
      (by norm_num [findCell, exSend, exSrc, exTgt])
      (by norm_num [exSrc])).1

/-- C9: `sendUnits` succeeds for every `unitCount ≤ source.units`, with no
positivity guard — zero and negative counts are accepted, the source is set
to `source.units − unitCount` (a negative count increases the garrison), and
an in-transit unit carrying exactly that count is appended. -/
theorem sendUnits_no_positivity_guard (st : GameState) (srcId tgtId : ℕ)
    (count speed : ℚ) (rand : Bool) (s : Cell)
    (hs : findCell st.cells srcId = some s)
    (ht : (findCell st.cells tgtId).isSome = true)
    (hle : count ≤ s.units) :
    (sendUnits st srcId tgtId count speed rand).1 = true ∧
    findCell (sendUnits st srcId tgtId count speed rand).2.1.cells srcId =
      some { s with units := s.units - count } ∧
    ∃ u : TransitUnit,
      (sendUnits st srcId tgtId count speed rand).2.1.units = st.units ++ [u] ∧
      u.unitCount = count ∧ u.owner = s.owner ∧ u.targetCellId = tgtId ∧
      u.progress = 0 := by
  rcases htgt : findCell st.cells tgtId with _ | t
  · rw [htgt] at ht
    simp at ht
  · have hnl : ¬ s.units < count := not_lt.mpr hle
    have hfind : findCell
        (updateFirstCell st.cells srcId (fun c => { c with units := c.units - count }))
        srcId = some { s with units := s.units - count } := by
      rw [findCell_updateFirstCell st.cells srcId
        (fun c => { c with units := c.units - count }) (fun x => rfl), hs]
      rfl
    rcases hpath : findPath st.paths srcId tgtId with _ | p
    · refine ⟨by simp [sendUnits, hs, htgt, if_neg hnl, hpath],
        by simp [sendUnits, hs, htgt, if_neg hnl, hpath, hfind], ?_⟩
      exact ⟨⟨st.nextId, s.owner, tgtId, count, 0, 1 / ((5/2) * speed),
          none, none, none, none⟩,
        by simp [sendUnits, hs, htgt, if_neg hnl, hpath], rfl, rfl, rfl, rfl⟩
    · refine ⟨by simp [sendUnits, hs, htgt, if_neg hnl, hpath],
        by simp [sendUnits, hs, htgt, if_neg hnl, hpath, hfind], ?_⟩
      exact ⟨⟨st.nextId, s.owner, tgtId, count, 0, 1 / ((5/2) * speed),
          none, none, none, none⟩,
        by simp [sendUnits, hs, htgt, if_neg hnl, hpath], rfl, rfl, rfl, rfl⟩

/-- Witness for `sendUnits_no_positivity_guard`: dispatching −3 units from
the 5-unit source succeeds and raises the source garrison to 8. -/
theorem sendUnits_no_positivity_guard_witness :
    (sendUnits exSend 0 1 (-3) 1 false).1 = true ∧
    findCell (sendUnits exSend 0 1 (-3) 1 false).2.1.cells 0 =
      some { exSrc with units := 8 } := by
  have h := sendUnits_no_positivity_guard exSend 0 1 (-3) 1 false exSrc
    (by norm_num [findCell, exSend, exSrc])
    (by norm_num [findCell, exSend, exSrc, exTgt])
    (by norm_num [exSrc])
  refine ⟨h.1, ?_⟩
  rw [h.2.1]
  norm_num [exSrc]



/-- C10: the win-condition check ends the game with winner `enemy` exactly
when the player owns zero cells, otherwise with winner `player` exactly when
the enemy owns zero cells, and otherwise changes nothing; cells owned by
neutral or any third faction are invisible to the check, so the match can
end while other factions still hold cells. -/
theorem checkWinCondition_spec (st : GameState) :
    ((∀ c ∈ st.cells, c.owner ≠ "player") →
      checkWinCondition st =
        ({ st with gamePhase := "ended", winner := some "enemy" }, ["game_ended"])) ∧
    ((∃ c ∈ st.cells, c.owner = "player") → (∀ c ∈ st.cells, c.owner ≠ "enemy") →
      checkWinCondition st =
        ({ st with gamePhase := "ended", winner := some "player" }, ["game_ended"])) ∧
    ((∃ c ∈ st.cells, c.owner = "player") → (∃ c ∈ st.cells, c.owner = "enemy") →
      checkWinCondition st = (st, [])) ∧
    (∀ x : Cell, x.owner ≠ "player" → x.owner ≠ "enemy" →
      (checkWinCondition { st with cells := st.cells ++ [x] }).1.gamePhase =
        (checkWinCondition st).1.gamePhase ∧
      (checkWinCondition { st with cells := st.cells ++ [x] }).1.winner =
        (checkWinCondition st).1.winner ∧
      (checkWinCondition { st with cells := st.cells ++ [x] }).2 =
        (checkWinCondition st).2) := by
  have hp : ∀ cs : List Cell,
      ((cs.filter (fun c => decide (c.owner = "player"))).length = 0) ↔
        (∀ c ∈ cs, c.owner ≠ "player") := by
    intro cs
    rw [List.length_eq_zero, List.filter_eq_nil_iff]
    simp
  have he : ∀ cs : List Cell,
      ((cs.filter (fun c => decide (c.owner = "enemy"))).length = 0) ↔
        (∀ c ∈ cs, c.owner ≠ "enemy") := by
    intro cs
    rw [List.length_eq_zero, List.filter_eq_nil_iff]
    simp
  refine ⟨?_, ?_, ?_, ?_⟩
  · intro h
    simp only [checkWinCondition, if_pos ((hp st.cells).mpr h)]
  · intro h1 h2
    have hnp : ¬ (st.cells.filter (fun c => decide (c.owner = "player"))).length = 0 := by
      rw [hp]
      push_neg
      exact h1
    simp only [checkWinCondition, if_neg hnp, if_pos ((he st.cells).mpr h2)]
  · intro h1 h2
    have hnp : ¬ (st.cells.filter (fun c => decide (c.owner = "player"))).length = 0 := by
      rw [hp]
      push_neg
      exact h1
    have hne : ¬ (st.cells.filter (fun c => decide (c.owner = "enemy"))).length = 0 := by
      rw [he]
      push_neg
      exact h2
    simp only [checkWinCondition, if_neg hnp, if_neg hne]
  · intro x hxp hxe
    have hfp : (st.cells ++ [x]).filter (fun c => decide (c.owner = "player")) =
        st.cells.filter (fun c => decide (c.owner = "player")) := by
      rw [List.filter_append]
      simp [hxp]
    have hfe : (st.cells ++ [x]).filter (fun c => decide (c.owner = "enemy")) =
        st.cells.filter (fun c => decide (c.owner = "enemy")) := by
      rw [List.filter_append]
      simp [hxe]
    by_cases h1 : (st.cells.filter (fun c => decide (c.owner = "player"))).length = 0
    · simp [checkWinCondition, hfp, hfe, h1]
    · by_cases h2 : (st.cells.filter (fun c => decide (c.owner = "enemy"))).length = 0
      · simp [checkWinCondition, hfp, hfe, h1, h2]
      · simp [checkWinCondition, hfp, hfe, h1, h2]

/-- Witness for `checkWinCondition_spec`: on `stWin` the player owns no
cell, so the game ends with winner `enemy` even though a third faction
still holds a cell. -/
theorem checkWinCondition_spec_witness :
    (checkWinCondition stWin).1.winner = some "enemy" ∧
    (checkWinCondition stWin).1.gamePhase = "ended" ∧
    ∃ c ∈ stWin.cells, c.owner = "faction3" := by
  have h := (checkWinCondition_spec stWin).1 (by decide)
  rw [h]
  exact ⟨rfl, rfl, by decide⟩



/-- Scenario A, stage 1: during the arrival tick the 6-unit player block
reaches the neutral cell and a battle is created with snapshots
`initialAttackerUnits = 6`, `initialDefenderUnits = 2` and duration 4000 ms. -/
theorem scenarioA_arrival :
    updateUnits stA 0 (1/10) = (stA1, ["battle_started", "state_changed"]) := by
  norm_num +decide [updateUnits, stA, unitA, cellA, cellB, ctBasic, findCell,
    findBattleAt, processUnitArrival, startOrJoinBattle, calculateBattleDuration,
    updateFirstCell, updateFirstBattle, reinforceDefenders, jsOr, jsOrNum, stA1,
    unitA1, battleA]

/-- Scenario A, stage 2: the same tick's battle-advance phase processes the
fresh battle at progress 0 without changing anything. -/
theorem scenarioA_same_tick :
    updateBattles 0 stA1 = (stA1, ["battle_progress"]) := by
  norm_num [updateBattles, updateBattlesStep, processBattleDamage, damageAttacker,
    resolveBattle, stA1, battleA, unitA1, cellA, cellB, ctBasic, findCell,
    attackerCurrentForce, attackerInitialUnits, attackerJoinProgress, jsOr, jsOrNum,
    updateFirstCell]

/-- Scenario A, stage 3: at `now = 4000` the battle reaches progress 1 and
resolves — the neutral cell becomes player-owned with 4 units. -/
theorem scenarioA_resolve :
    updateBattles 4000 stA1 =
      (stA2, ["battle_progress", "cell_captured", "battle_ended"]) := by
  norm_num [updateBattles, updateBattlesStep, processBattleDamage, damageAttacker,
    resolveBattle, stA1, stA2, battleA, unitA1, cellA, cellB, cellB2, ctBasic,
    findCell, attackerCurrentForce, attackerInitialUnits, attackerJoinProgress,
    jsOr, jsOrNum, updateFirstCell, factionOwners, factionEffective,
    factionSurviving, attackerEffectiveForce, pickWinner, findFaction,
    winnerSurvivorsOf]

/-- C4: Scenario A end to end — a 6-unit player block arriving at a neutral
2-unit cell (defense bonus 1, no existing battle) starts a battle with
`initialAttackerUnits = 6`, `initialDefenderUnits = 2` and duration 4 s
(ratio 3); at progress 1 the attackers win with 4 surviving units and the
cell becomes player-owned with exactly 4 units. -/
theorem scenarioA_spec :
    updateUnits stA 0 (1/10) = (stA1, ["battle_started", "state_changed"]) ∧
    stA1.battles = [battleA] ∧
    battleA.initialAttackerUnits = some 6 ∧
    battleA.initialDefenderUnits = some 2 ∧
    calculateBattleDuration 6 2 = 4 ∧
    battleA.duration = 4 * 1000 ∧
    updateBattles 4000 stA1 =
      (stA2, ["battle_progress", "cell_captured", "battle_ended"]) ∧
    ((processBattleDamage stA1.cells { battleA with progress := 1 }).attackers.map
      (fun a => a.unitCount)) = [4] ∧
    findCell stA2.cells 1 = some { cellB with owner := "player", units := 4 } := by
  refine ⟨scenarioA_arrival, rfl, rfl, rfl, ?_, by norm_num [battleA],
    scenarioA_resolve, ?_, ?_⟩
  · norm_num [calculateBattleDuration]
  · norm_num [processBattleDamage, damageAttacker, stA1, battleA, unitA1, cellA,
      cellB, ctBasic, findCell, attackerCurrentForce, attackerInitialUnits,
      attackerJoinProgress, jsOr, jsOrNum]
  · norm_num [findCell, stA2, cellA, cellB, cellB2, ctBasic]



/-- The superseded first engine variant really did skip the damage pass when
a battle-level snapshot was missing (falsy guard on
`initialAttackerUnits`/`initialDefenderUnits`). -/
theorem processBattleDamageV1_skips (cells : List Cell) (b : Battle)
    (h : b.initialAttackerUnits = none ∨ b.initialDefenderUnits = none) :
    processBattleDamageV1 cells b = b := by
  unfold processBattleDamageV1
  cases hfc : findCell cells b.cellId
  · rfl
  · rcases h with h | h <;> simp [jsOr, h]

/-- C7 counterexample: on `battle7` (both snapshots missing) the normative
`processBattleDamage` does not skip the tick — it falls back to live values
and changes both the defender count (4 → 2) and the attacker's unit count
(6 → 4). -/
theorem processBattleDamage_missing_snapshot_counterexample :
    battle7.initialAttackerUnits = none ∧
    battle7.initialDefenderUnits = none ∧
    (processBattleDamage [cell7] battle7).defenderUnits = 2 ∧
    battle7.defenderUnits = 4 ∧
    ((processBattleDamage [cell7] battle7).attackers.map fun a => a.unitCount) = [4] ∧
    (battle7.attackers.map fun a => a.unitCount) = [6] ∧
    (processBattleDamage [cell7] battle7).defenderUnits ≠ battle7.defenderUnits ∧
    ((processBattleDamage [cell7] battle7).attackers.map fun a => a.unitCount) ≠
      (battle7.attackers.map fun a => a.unitCount) := by
  norm_num [processBattleDamage, damageAttacker, battle7, unit7, cell7, ctBasic,
    findCell, attackerCurrentForce, attackerInitialUnits, attackerJoinProgress,
    jsOr, jsOrNum]

/-- C7 amended: in the normative engine a missing snapshot does not skip the
damage pass.  `initialAttackerUnits` is never read at all, and a missing
`initialDefenderUnits` falls back to the target cell's current units —
processing proceeds exactly as if the snapshot had been set to that value. -/
theorem processBattleDamage_missing_snapshot_fallback (cells : List Cell)
    (b : Battle) (c : Cell) (hc : findCell cells b.cellId = some c) :
    (∀ x : Option ℚ,
      (processBattleDamage cells { b with initialAttackerUnits := x }).defenderUnits =
        (processBattleDamage cells b).defenderUnits ∧
      (processBattleDamage cells { b with initialAttackerUnits := x }).attackers =
        (processBattleDamage cells b).attackers) ∧
    (b.initialDefenderUnits = none → c.units ≠ 0 →
      (processBattleDamage cells b).defenderUnits =
        (processBattleDamage cells
          { b with initialDefenderUnits := some c.units }).defenderUnits ∧
      (processBattleDamage cells b).attackers =
        (processBattleDamage cells
          { b with initialDefenderUnits := some c.units }).attackers) := by
  constructor
  · intro x
    constructor <;> simp [processBattleDamage, hc]
  · intro hmiss hcu
    constructor <;> simp [processBattleDamage, hc, hmiss, jsOr, hcu]

/-- Witness for `processBattleDamage_missing_snapshot_fallback` at the
concrete malformed battle `battle7` and cell `cell7`. -/
theorem processBattleDamage_missing_snapshot_fallback_witness :
    (processBattleDamage [cell7] battle7).defenderUnits =
      (processBattleDamage [cell7]
        { battle7 with initialDefenderUnits := some cell7.units }).defenderUnits := by
  have h := processBattleDamage_missing_snapshot_fallback [cell7] battle7 cell7
    (by norm_num [findCell, cell7, battle7])
  exact (h.2 rfl (by norm_num [cell7])).1



/-- At progress 0 the damage pass is the identity on the observable counts:
with an intact defender snapshot and per-attacker snapshots equal to the
current counts, neither the defender pool nor any attacker count changes. -/
theorem processBattleDamage_progress_zero (cells : List Cell) (b : Battle)
    (hprog : b.progress = 0)
    (hsnap : b.initialDefenderUnits = some b.defenderUnits)
    (hd : 0 < b.defenderUnits)
    (hatt : ∀ a ∈ b.attackers, a.initialUnitCount = some a.unitCount ∧
      0 ≤ attackerJoinProgress a) :
    (processBattleDamage cells b).defenderUnits = b.defenderUnits ∧
    ((processBattleDamage cells b).attackers.map fun a => a.unitCount) =
      (b.attackers.map fun a => a.unitCount) ∧
    (processBattleDamage cells b).progress = b.progress := by
  cases hfc : findCell cells b.cellId with
  | none => simp [processBattleDamage, hfc]
  | some c =>
    have hinitD : jsOr b.initialDefenderUnits c.units = b.defenderUnits := by
      rw [hsnap]
      simp [jsOr, ne_of_gt hd]
    have hdmg : ∀ tc fs : ℚ, ∀ a ∈ b.attackers,
        (damageAttacker b.progress tc fs a).unitCount = a.unitCount := by
      intro tc fs a hma
      obtain ⟨h1, h2⟩ := hatt a hma
      have hcond : max 0 (b.progress - attackerJoinProgress a) ≤ 0 := by
        rw [hprog]
        exact max_le (le_refl 0) (by linarith)
      simp only [damageAttacker, if_pos hcond]
      rw [attackerInitialUnits, h1, jsOr_some_self]
    refine ⟨?_, ?_, ?_⟩
    · simp only [processBattleDamage, hfc, hinitD, hprog]
      simp [le_of_lt hd]
    · simp only [processBattleDamage, hfc, List.map_map]
      exact List.map_congr_left (fun a ha => hdmg _ _ a ha)
    · simp [processBattleDamage, hfc]

/-- C8 amended: a battle created during this tick's movement phase IS
iterated by the same tick's battle-advance phase — it is advanced, damaged
and a `battle_progress` event is emitted for it — but because its
`startTime` equals the tick's clock its progress computes to 0 and the
damage pass leaves the defender pool and every attacker count unchanged, so
combat only takes effect from the following tick onward. -/
theorem newBattle_same_tick_processed_as_noop (st : GameState) (b : Battle)
    (now : ℚ) (hb : st.battles = [b]) (hstart : b.startTime = now)
    (hsnap : b.initialDefenderUnits = some b.defenderUnits)
    (hd : 0 < b.defenderUnits)
    (hatt : ∀ a ∈ b.attackers, a.initialUnitCount = some a.unitCount ∧
      0 ≤ attackerJoinProgress a) :
    ∃ b2, (updateBattles now st).1.battles = [b2] ∧
      b2.progress = 0 ∧
      b2.defenderUnits = b.defenderUnits ∧
      (b2.attackers.map fun a => a.unitCount) = (b.attackers.map fun a => a.unitCount) ∧
      (updateBattles now st).2 = ["battle_progress"] := by
  have hnn : now - b.startTime = 0 := by rw [hstart]; ring
  set b1 : Battle := { b with progress := min 1 ((now - b.startTime) / b.duration) }
    with hb1
  have hprog1 : b1.progress = 0 := by
    simp [hb1, hnn]
  have hz := processBattleDamage_progress_zero st.cells b1 hprog1 hsnap hd hatt
  have hlt : ¬ (1 : ℚ) ≤ (processBattleDamage st.cells b1).progress := by
    rw [hz.2.2, hprog1]
    norm_num
  refine ⟨processBattleDamage st.cells b1, ?_, ?_, ?_, ?_, ?_⟩
  · simp only [updateBattles, hb, List.foldl_cons, List.foldl_nil, updateBattlesStep,
      if_neg hlt]
    rfl
  · rw [hz.2.2, hprog1]
  · exact hz.1
  · exact hz.2.1
  · simp only [updateBattles, hb, List.foldl_cons, List.foldl_nil, updateBattlesStep,
      if_neg hlt]
    simp

/-- Witness for `newBattle_same_tick_processed_as_noop` at the Scenario A
battle freshly created at time 0. -/
theorem newBattle_same_tick_processed_as_noop_witness :
    ∃ b2, (updateBattles 0 stA1).1.battles = [b2] ∧
      b2.progress = 0 ∧
      b2.defenderUnits = battleA.defenderUnits ∧
      (b2.attackers.map fun a => a.unitCount) =
        (battleA.attackers.map fun a => a.unitCount) ∧
      (updateBattles 0 stA1).2 = ["battle_progress"] := by
  exact newBattle_same_tick_processed_as_noop stA1 battleA 0 rfl rfl rfl
    (by norm_num [battleA]) (by decide)

/-- C8 counterexample: starting from `stA` (no battles at all), the single
tick `movementAndBattlePhase stA 0 (1/10)` both creates a battle
(`battle_started`) and processes it in the same tick's battle-advance phase
(`battle_progress`), refuting "that battle is never processed" as stated. -/
theorem sameTick_battle_processed_counterexample :
    stA.battles = [] ∧
    (movementAndBattlePhase stA 0 (1/10)).2 =
      ["battle_started", "state_changed", "battle_progress"] := by
  refine ⟨rfl, ?_⟩
  simp only [movementAndBattlePhase, scenarioA_arrival, scenarioA_same_tick]
  rfl



/-- C6: a same-owner arrival at a cell with an active battle is an
instantaneous mid-battle reinforcement: the first battle at that cell gains
exactly the unit's count on `defenderUnits` (all other battle fields and all
other battles untouched), the first cell with the target id gains exactly
the unit's count (all other cells untouched), the arriving unit is removed
from the transit list (no other transit unit touched), and exactly one
reinforcement event is emitted. -/
theorem processUnitArrival_reinforce
    (st : GameState) (now : ℚ) (u : TransitUnit) (c : Cell) (b : Battle)
    (preC postC : List Cell) (preB postB : List Battle)
    (preU postU : List TransitUnit)
    (hcells : st.cells = preC ++ c :: postC)
    (hpreC : ∀ x ∈ preC, x.id ≠ u.targetCellId)
    (hcid : c.id = u.targetCellId)
    (hbattles : st.battles = preB ++ b :: postB)
    (hpreB : ∀ x ∈ preB, x.cellId ≠ c.id)
    (hbid : b.cellId = c.id)
    (hunits : st.units = preU ++ u :: postU)
    (hpreU : ∀ x ∈ preU, x.id ≠ u.id)
    (hpostU : ∀ x ∈ postU, x.id ≠ u.id)
    (howner : c.owner = u.owner) :
    processUnitArrival st now u =
      ({ st with
          cells := preC ++ { c with units := c.units + u.unitCount } :: postC,
          battles := preB ++
            { b with defenderUnits := b.defenderUnits + u.unitCount } :: postB,
          units := preU ++ postU },
       ["defenders_reinforced"]) := by
  have hfc : findCell st.cells u.targetCellId = some c := by
    rw [hcells]
    exact findCell_of_decomp _ _ _ _ hpreC hcid
  have hfb : findBattleAt st.battles c.id = some b := by
    rw [hbattles]
    exact findBattleAt_of_decomp _ _ _ _ hpreB hbid
  have hpreC2 : ∀ x ∈ preC, x.id ≠ c.id := by
    intro x hx
    rw [hcid]
    exact hpreC x hx
  have hcells2 : updateFirstCell st.cells c.id
      (fun x => { x with units := x.units + u.unitCount }) =
      preC ++ { c with units := c.units + u.unitCount } :: postC := by
    rw [hcells]
    exact updateFirstCell_of_decomp _ _ _ _ _ hpreC2 rfl
  have hbattles2 : updateFirstBattle st.battles c.id
      (fun x => { x with defenderUnits := x.defenderUnits + u.unitCount }) =
      preB ++ { b with defenderUnits := b.defenderUnits + u.unitCount } :: postB := by
    rw [hbattles]
    exact updateFirstBattle_of_decomp _ _ _ _ _ hpreB hbid
  have hunits2 : st.units.filter (fun x => decide (¬ x.id = u.id)) = preU ++ postU := by
    rw [hunits, List.filter_append, List.filter_cons]
    have h1 : preU.filter (fun x => !decide (x.id = u.id)) = preU := by
      rw [List.filter_eq_self]
      intro x hx
      simpa using hpreU x hx
    have h2 : postU.filter (fun x => !decide (x.id = u.id)) = postU := by
      rw [List.filter_eq_self]
      intro x hx
      simpa using hpostU x hx
    simp [h1, h2]
  simp only [processUnitArrival, hfc, hfb, if_pos howner, reinforceDefenders,
    hcells2, hbattles2, hunits2]

/-- Witness for `processUnitArrival_reinforce`: 2 player units arriving at
the besieged `cellR` raise both the battle's defender pool and the cell to
5 and leave the transit list empty. -/
theorem processUnitArrival_reinforce_witness :
    processUnitArrival stR 0 unitR =
      ({ stR with
          cells := [{ cellR with units := 5 }],
          battles := [{ battleR with defenderUnits := 5 }],
          units := [] },
       ["defenders_reinforced"]) := by
  have h := processUnitArrival_reinforce stR 0 unitR cellR battleR
    [] [] [] [] [] [] rfl (by simp) rfl rfl (by simp) rfl rfl (by simp) (by simp) rfl
  rw [h]
  norm_num [cellR, battleR, unitR]



theorem attackerEffectiveForce_nonneg (a : TransitUnit)
    (h : 0 ≤ attackerInitialUnits a) : 0 ≤ attackerEffectiveForce a := by
  unfold attackerEffectiveForce
  apply mul_nonneg h
  exact le_min (by norm_num)
    (div_nonneg (le_max_left 0 _) (by norm_num))

theorem factionEffective_nonneg (l : List TransitUnit) (o : String)
    (h : ∀ a ∈ l, 0 ≤ attackerInitialUnits a) : 0 ≤ factionEffective l o := by
  unfold factionEffective
  apply List.sum_nonneg
  intro x hx
  obtain ⟨a, ha, rfl⟩ := List.mem_map.mp hx
  exact attackerEffectiveForce_nonneg a (h a (List.mem_of_mem_filter ha))

/-- Inside `resolveBattle`, summing the per-faction effective forces over the
faction table equals `totalEffectiveAttackers`. -/
theorem resolveBattle_totalEffective (attackers : List TransitUnit) :
    (((factionOwners attackers).map (fun o =>
        (o, factionEffective attackers o, factionSurviving attackers o))).map
      (fun f => f.2.1)).sum = totalEffectiveAttackers attackers := by
  rw [List.map_map]
  rfl

/-- Inside `resolveBattle`, the pair list handed to the winner-selection
fold is the owner/effective-force table. -/
theorem resolveBattle_fs (attackers : List TransitUnit) :
    ((factionOwners attackers).map (fun o =>
        (o, factionEffective attackers o, factionSurviving attackers o))).map
      (fun f => (f.1, f.2.1)) =
    (factionOwners attackers).map (fun o => (o, factionEffective attackers o)) := by
  rw [List.map_map]
  rfl

/-- Packaging of `findCell_updateFirstCell`: the updated cell satisfies any
property the update forces. -/
theorem exists_findCell_update (cells : List Cell) (cid : ℕ) (g : Cell → Cell)
    (c : Cell) (hc : findCell cells cid = some c) (hid : ∀ x, (g x).id = x.id)
    (P : Cell → Prop) (hP : P (g c)) :
    ∃ c2, findCell (updateFirstCell cells cid g) cid = some c2 ∧ P c2 := by
  refine ⟨g c, ?_, hP⟩
  rw [findCell_updateFirstCell _ _ _ hid, hc]
  rfl

/-- C1: a battle resolved at progress ≥ 1 is captured by the attackers iff
the total participation-weighted effective attacker force across all
factions strictly exceeds `initialDefenderUnits × defenseBonus`; on exact
equality the defenders win and the cell's owner is unchanged, and on an
attacker win the new owner is an attacking faction of greatest effective
force. -/
theorem resolveBattle_win_rule (st : GameState) (b : Battle) (c : Cell)
    (hc : findCell st.cells b.cellId = some c)
    (hprog : 1 ≤ b.progress)
    (hinit : ∀ a ∈ b.attackers, 0 ≤ attackerInitialUnits a)
    (hdef : 0 ≤ jsOr b.initialDefenderUnits c.units * jsOrNum c.ctype.defenseBonus 1)
    (hown : ∀ a ∈ b.attackers, a.owner ≠ c.owner) :
    ∃ c2, findCell (resolveBattle st b).1.cells b.cellId = some c2 ∧
      (c2.owner ≠ c.owner ↔
        jsOr b.initialDefenderUnits c.units * jsOrNum c.ctype.defenseBonus 1 <
          totalEffectiveAttackers b.attackers) ∧
      (jsOr b.initialDefenderUnits c.units * jsOrNum c.ctype.defenseBonus 1 <
          totalEffectiveAttackers b.attackers →
        (∃ a ∈ b.attackers, a.owner = c2.owner) ∧
        (∀ o ∈ factionOwners b.attackers,
          factionEffective b.attackers o ≤ factionEffective b.attackers c2.owner)) ∧
      (totalEffectiveAttackers b.attackers ≤
          jsOr b.initialDefenderUnits c.units * jsOrNum c.ctype.defenseBonus 1 →
        c2.owner = c.owner) := by
  simp only [resolveBattle, hc, resolveBattle_totalEffective, resolveBattle_fs]
  by_cases hwin : jsOr b.initialDefenderUnits c.units * jsOrNum c.ctype.defenseBonus 1 <
      totalEffectiveAttackers b.attackers
  · rw [if_pos hwin]
    set fs := (factionOwners b.attackers).map
      (fun o => (o, factionEffective b.attackers o)) with hfs
    have htot : totalEffectiveAttackers b.attackers = (fs.map (fun f => f.2)).sum := by
      rw [hfs, List.map_map]
      rfl
    have htpos : 0 < totalEffectiveAttackers b.attackers := lt_of_le_of_lt hdef hwin
    obtain ⟨x, hxmem, hxpos⟩ := listSum_exists_pos _ (htot ▸ htpos)
    obtain ⟨f, hfmem, hfx⟩ := List.mem_map.mp hxmem
    have hw2 : 0 < (pickWinner fs).2 := by
      calc 0 < x := hxpos
        _ = f.2 := hfx.symm
        _ ≤ _ := pickWinner_aux_ge_mem fs ("", 0) f hfmem
    have hwmem : pickWinner fs ∈ fs := by
      rcases pickWinner_aux_mem_or_init fs ("", 0) with h | h
      · exact h
      · have h2 : (pickWinner fs).2 = 0 := by
          rw [show pickWinner fs = (("", 0) : String × ℚ) from h]
        rw [h2] at hw2
        norm_num at hw2
    obtain ⟨o, ho, hoe⟩ := List.mem_map.mp hwmem
    have hw1 : (pickWinner fs).1 = o := by rw [← hoe]
    have hweff : (pickWinner fs).2 = factionEffective b.attackers o := by rw [← hoe]
    obtain ⟨a0, ha0, ha0o⟩ := mem_factionOwners b.attackers o ho
    set W := (pickWinner fs).1 with hWdef
    set FF := (factionOwners b.attackers).map (fun o =>
      (o, factionEffective b.attackers o, factionSurviving b.attackers o)) with hFF
    set U := winnerSurvivorsOf FF W with hU
    refine exists_findCell_update st.cells b.cellId
      (fun x => { x with owner := W, units := max 1 ((⌊U⌋ : ℤ) : ℚ) })
      c hc (fun x => rfl) _ ?_
    refine ⟨⟨fun _ => hwin, fun _ => ?_⟩, fun _ => ⟨⟨a0, ha0, ?_⟩, fun o2 ho2 => ?_⟩,
      fun hle => absurd hwin (not_lt.mpr hle)⟩
    · show W ≠ c.owner
      rw [hw1, ← ha0o]
      exact hown a0 ha0
    · show a0.owner = W
      rw [ha0o, hw1]
    · show factionEffective b.attackers o2 ≤ factionEffective b.attackers W
      calc factionEffective b.attackers o2
          = ((o2, factionEffective b.attackers o2) : String × ℚ).2 := rfl
        _ ≤ (pickWinner fs).2 := pickWinner_aux_ge_mem fs ("", 0) _
            (List.mem_map_of_mem _ ho2)
        _ = factionEffective b.attackers o := hweff
        _ = factionEffective b.attackers W := by rw [hw1]
  · rw [if_neg hwin]
    exact exists_findCell_update st.cells b.cellId
      (fun x => { x with units := max 1 ((⌊b.defenderUnits⌋ : ℤ) : ℚ) })
      c hc (fun x => rfl) _
      ⟨⟨fun h => absurd rfl h, fun h => absurd h hwin⟩,
        fun h => absurd h hwin, fun _ => rfl⟩


/-- Witness for `resolveBattle_win_rule`: resolving the Scenario A battle at
progress 1 captures the neutral cell (effective force 6 against effective
defense 2). -/
theorem resolveBattle_win_rule_witness :
    ∃ c2, findCell (resolveBattle stA1 { battleA with progress := 1 }).1.cells 1 =
        some c2 ∧ c2.owner ≠ cellB.owner := by
  obtain ⟨c2, h1, h2, _, _⟩ := resolveBattle_win_rule stA1
    { battleA with progress := 1 } cellB
    (by norm_num [findCell, stA1, cellA, cellB, battleA, ctBasic])
    (by norm_num)
    (by simp [battleA, unitA1, attackerInitialUnits, jsOr])
    (by norm_num [battleA, cellB, ctBasic, jsOr, jsOrNum])
    (by simp [battleA, unitA1, cellB])
  refine ⟨c2, h1, h2.mpr ?_⟩
  norm_num [totalEffectiveAttackers, factionOwners, factionEffective,
    attackerEffectiveForce, attackerInitialUnits, attackerJoinProgress,
    jsOr, jsOrNum, battleA, unitA1, cellB, ctBasic]



theorem damageAttacker_owner (p tc fs : ℚ) (a : TransitUnit) :
    (damageAttacker p tc fs a).owner = a.owner := by
  simp only [damageAttacker]
  split_ifs <;> rfl

theorem damageAttacker_id (p tc fs : ℚ) (a : TransitUnit) :
    (damageAttacker p tc fs a).id = a.id := by
  simp only [damageAttacker]
  split_ifs <;> rfl

/-- Each attacker's count after the damage pass stays within
`[0, initialUnitCount]` as long as the final survivors do not exceed the
current attacker total. -/
theorem damageAttacker_bounds (p tc fs : ℚ) (a : TransitUnit)
    (hinita : 0 ≤ attackerInitialUnits a) (htc : 0 < tc)
    (hfs0 : 0 ≤ fs) (hfsle : fs ≤ tc) :
    (damageAttacker p tc fs a).unitCount ≤ attackerInitialUnits a ∧
    0 ≤ (damageAttacker p tc fs a).unitCount := by
  have hval : (damageAttacker p tc fs a).unitCount =
      if max 0 (p - attackerJoinProgress a) ≤ 0 then attackerInitialUnits a
      else max 0 (attackerInitialUnits a - (attackerInitialUnits a -
        attackerInitialUnits a * (fs / tc)) *
        min 1 (max 0 (p - attackerJoinProgress a) /
          max (1/10) (1 - attackerJoinProgress a))) := by
    simp only [damageAttacker, if_pos htc]
    split_ifs <;> rfl
  rw [hval]
  split_ifs with h1
  · exact ⟨le_refl _, hinita⟩
  · constructor
    · apply max_le hinita
      have hrate1 : fs / tc ≤ 1 := (div_le_one htc).mpr hfsle
      have hrate0 : 0 ≤ fs / tc := div_nonneg hfs0 htc.le
      have hbdp0 : 0 ≤ min 1 (max 0 (p - attackerJoinProgress a) /
          max (1/10) (1 - attackerJoinProgress a)) := by
        apply le_min (by norm_num)
        apply div_nonneg (le_max_left 0 _)
        calc (0:ℚ) ≤ 1/10 := by norm_num
          _ ≤ _ := le_max_left _ _
      have hIms : 0 ≤ attackerInitialUnits a - attackerInitialUnits a * (fs / tc) := by
        nlinarith
      nlinarith
    · exact le_max_left 0 _

/-- The attacker list produced by `processBattleDamage` for a battle at
progress 1 is a pointwise-damaged copy of the original: owners and ids are
preserved and every count lands in `[0, initialUnitCount]`. -/
theorem processBattleDamage_attacker_bounds (cells : List Cell) (b : Battle)
    (c : Cell) (hc : findCell cells b.cellId = some c)
    (hprog : b.progress = 1)
    (hjp : ∀ a ∈ b.attackers, 0 ≤ attackerJoinProgress a ∧ attackerJoinProgress a < 1)
    (hinit : ∀ a ∈ b.attackers, 0 ≤ attackerInitialUnits a)
    (hsum : 1 ≤ (b.attackers.map attackerInitialUnits).sum)
    (hdefI : 0 ≤ jsOr b.initialDefenderUnits c.units)
    (hbonus : 0 < jsOrNum c.ctype.defenseBonus 1) :
    ∃ dmg : TransitUnit → TransitUnit,
      (processBattleDamage cells b).attackers = b.attackers.map dmg ∧
      (∀ a, (dmg a).owner = a.owner) ∧ (∀ a, (dmg a).id = a.id) ∧
      (∀ a ∈ b.attackers, (dmg a).unitCount ≤ attackerInitialUnits a) ∧
      (∀ a ∈ b.attackers, 0 ≤ (dmg a).unitCount) := by
  set tc := (b.attackers.map (attackerCurrentForce b.progress)).sum with htc_def
  set effD := jsOr b.initialDefenderUnits c.units * jsOrNum c.ctype.defenseBonus 1
    with heffD_def
  set fs := max 0 (if effD < tc then tc - effD else 0) with hfs_def
  have heffD0 : 0 ≤ effD := mul_nonneg hdefI hbonus.le
  have hterm : ∀ x ∈ b.attackers.map (attackerCurrentForce b.progress), 0 ≤ x := by
    intro x hx
    obtain ⟨a, ha, rfl⟩ := List.mem_map.mp hx
    exact mul_nonneg (hinit a ha)
      (le_min (by norm_num) (div_nonneg (le_max_left 0 _) (by norm_num)))
  have htc0 : 0 < tc := by
    have h1 : (0:ℚ) < (b.attackers.map attackerInitialUnits).sum :=
      lt_of_lt_of_le one_pos hsum
    obtain ⟨x, hx, hxpos⟩ := listSum_exists_pos _ h1
    obtain ⟨a, ha, rfl⟩ := List.mem_map.mp hx
    have hjpa := hjp a ha
    have hmaxpos : (0:ℚ) < max 0 (b.progress - attackerJoinProgress a) := by
      rw [hprog]
      have h2 : (0:ℚ) < 1 - attackerJoinProgress a := by linarith [hjpa.2]
      calc (0:ℚ) < 1 - attackerJoinProgress a := h2
        _ ≤ max 0 (1 - attackerJoinProgress a) := le_max_right _ _
    have hpart : 0 < min 1 (max 0 (b.progress - attackerJoinProgress a) / (1/10)) :=
      lt_min one_pos (div_pos hmaxpos (by norm_num))
    have hforce : 0 < attackerCurrentForce b.progress a := mul_pos hxpos hpart
    calc (0:ℚ) < attackerCurrentForce b.progress a := hforce
      _ ≤ tc := List.single_le_sum hterm _ (List.mem_map_of_mem _ ha)
  have hfs0 : 0 ≤ fs := le_max_left 0 _
  have hfsle : fs ≤ tc := by
    rw [hfs_def]
    apply max_le htc0.le
    split_ifs with h
    · linarith
    · exact htc0.le
  refine ⟨damageAttacker b.progress tc fs, ?_,
    fun a => damageAttacker_owner _ _ _ a, fun a => damageAttacker_id _ _ _ a,
    fun a ha => (damageAttacker_bounds b.progress tc fs a (hinit a ha)
      htc0 hfs0 hfsle).1,
    fun a ha => (damageAttacker_bounds b.progress tc fs a (hinit a ha)
      htc0 hfs0 hfsle).2⟩
  simp only [processBattleDamage, hc]

/-- `processBattleDamage` never changes the battle's cell id. -/
theorem processBattleDamage_cellId (cells : List Cell) (b : Battle) :
    (processBattleDamage cells b).cellId = b.cellId := by
  unfold processBattleDamage
  split <;> rfl

/-- `processBattleDamage` never changes the battle's progress. -/
theorem processBattleDamage_progress (cells : List Cell) (b : Battle) :
    (processBattleDamage cells b).progress = b.progress := by
  unfold processBattleDamage
  split <;> rfl

/-- `processBattleDamage` never changes the defender snapshot. -/
theorem processBattleDamage_initialDefenderUnits (cells : List Cell) (b : Battle) :
    (processBattleDamage cells b).initialDefenderUnits = b.initialDefenderUnits := by
  unfold processBattleDamage
  split <;> rfl

/-- A faction's surviving force over a pointwise-damaged attacker list is
bounded by the sum of all attackers' initial counts. -/
theorem factionSurviving_le_sum (l : List TransitUnit) (dmg : TransitUnit → TransitUnit)
    (o : String) (howner : ∀ a, (dmg a).owner = a.owner)
    (hle : ∀ a ∈ l, (dmg a).unitCount ≤ attackerInitialUnits a)
    (hpos : ∀ a ∈ l, 0 ≤ attackerInitialUnits a) :
    factionSurviving (l.map dmg) o ≤ (l.map attackerInitialUnits).sum := by
  unfold factionSurviving
  rw [List.filter_map]
  have hpred : l.filter ((fun a => decide (a.owner = o)) ∘ dmg) =
      l.filter (fun a => decide (a.owner = o)) := by
    apply List.filter_congr
    intro a _
    simp [Function.comp, howner a]
  rw [hpred, List.map_map]
  calc ((l.filter (fun a => decide (a.owner = o))).map
        ((fun a => a.unitCount) ∘ dmg)).sum
      ≤ ((l.filter (fun a => decide (a.owner = o))).map attackerInitialUnits).sum :=
        listSum_map_mono _ _ _ (fun x hx => hle x (List.mem_of_mem_filter hx))
    _ ≤ (l.map attackerInitialUnits).sum := listSum_filter_le _ _ _ hpos

theorem findFaction_some_mem (fs : List (String × ℚ × ℚ)) (o : String)
    (f : String × ℚ × ℚ) (h : findFaction fs o = some f) : f ∈ fs := by
  induction fs with
  | nil => simp [findFaction] at h
  | cons g t ih =>
    by_cases hg : g.1 = o
    · simp only [findFaction, if_pos hg] at h
      injection h with h2
      simp [h2]
    · simp only [findFaction, if_neg hg] at h
      exact List.mem_cons_of_mem _ (ih h)

/-- Conservation core for `resolveBattle`: if every faction's surviving
force is at most `S` and `1 ≤ S`, then a resolution that changes the owner
credits the cell with at most `S` units, and all attackers leave the
transit list. -/
theorem resolveBattle_conservation_aux (st : GameState) (b2 : Battle) (c : Cell)
    (S : ℚ) (hc : findCell st.cells b2.cellId = some c)
    (hsurv : ∀ o : String, factionSurviving b2.attackers o ≤ S)
    (hS : 1 ≤ S) :
    (∀ u ∈ (resolveBattle st b2).1.units, ∀ a2 ∈ b2.attackers, ¬ a2.id = u.id) ∧
    (∀ c2, findCell (resolveBattle st b2).1.cells b2.cellId = some c2 →
      c2.owner ≠ c.owner → c2.units ≤ S) := by
  simp only [resolveBattle, hc]
  set FF := (factionOwners b2.attackers).map (fun o =>
    (o, factionEffective b2.attackers o, factionSurviving b2.attackers o)) with hFF
  have hcred : ∀ W : String, max 1 ((⌊winnerSurvivorsOf FF W⌋ : ℤ) : ℚ) ≤ S := by
    intro W
    cases hff : findFaction FF W with
    | none =>
      have h0 : winnerSurvivorsOf FF W = 0 := by rw [winnerSurvivorsOf, hff]
      rw [h0]
      simpa using hS
    | some f =>
      have hWS : winnerSurvivorsOf FF W = f.2.2 := by
        rw [winnerSurvivorsOf, hff]
        exact jsOrNum_zero_right f.2.2
      have hmem : f ∈ FF := findFaction_some_mem FF W f hff
      obtain ⟨o2, _, hfo⟩ := List.mem_map.mp (hFF ▸ hmem)
      have hf22 : f.2.2 = factionSurviving b2.attackers o2 := by rw [← hfo]
      apply max_le hS
      rw [hWS]
      calc ((⌊f.2.2⌋ : ℤ) : ℚ) ≤ f.2.2 := Int.floor_le _
        _ = factionSurviving b2.attackers o2 := hf22
        _ ≤ S := hsurv o2
  by_cases hwin : jsOr b2.initialDefenderUnits c.units * jsOrNum c.ctype.defenseBonus 1 <
      ((FF.map (fun f => f.2.1)).sum)
  · rw [if_pos hwin]
    constructor
    · intro u hu a2 ha2
      have h2 := (List.mem_filter.mp hu).2
      rw [decide_eq_true_eq] at h2
      exact h2 a2 ha2
    · intro c2 hc2 _
      have hc2b : findCell (updateFirstCell st.cells b2.cellId (fun x =>
          { x with owner := (pickWinner (FF.map (fun f => (f.1, f.2.1)))).1,
                   units := max 1 ((⌊winnerSurvivorsOf FF
                     (pickWinner (FF.map (fun f => (f.1, f.2.1)))).1⌋ : ℤ) : ℚ) }))
          b2.cellId = some c2 := hc2
      rw [findCell_updateFirstCell st.cells b2.cellId (fun x =>
          { x with owner := (pickWinner (FF.map (fun f => (f.1, f.2.1)))).1,
                   units := max 1 ((⌊winnerSurvivorsOf FF
                     (pickWinner (FF.map (fun f => (f.1, f.2.1)))).1⌋ : ℤ) : ℚ) })
        (fun x => rfl), hc] at hc2b
      have hc2c : some ({ c with
          owner := (pickWinner (FF.map (fun f => (f.1, f.2.1)))).1,
          units := max 1 ((⌊winnerSurvivorsOf FF
            (pickWinner (FF.map (fun f => (f.1, f.2.1)))).1⌋ : ℤ) : ℚ) }) =
          some c2 := hc2b
      injection hc2c with hc2d
      rw [← hc2d]
      exact hcred _
  · rw [if_neg hwin]
    constructor
    · intro u hu a2 ha2
      have h2 := (List.mem_filter.mp hu).2
      rw [decide_eq_true_eq] at h2
      exact h2 a2 ha2
    · intro c2 hc2 hne
      have hc2b : findCell (updateFirstCell st.cells b2.cellId (fun x =>
          { x with units := max 1 ((⌊b2.defenderUnits⌋ : ℤ) : ℚ) }))
          b2.cellId = some c2 := hc2
      rw [findCell_updateFirstCell st.cells b2.cellId
        (fun x => { x with units := max 1 ((⌊b2.defenderUnits⌋ : ℤ) : ℚ) })
        (fun x => rfl), hc] at hc2b
      have hc2c : some ({ c with units := max 1 ((⌊b2.defenderUnits⌋ : ℤ) : ℚ) }) =
          some c2 := hc2b
      injection hc2c with hc2d
      rw [← hc2d] at hne
      exact absurd rfl hne



/-- C5 amended: for a battle resolved by the tick driver whose attackers all
joined before the end (`joinProgress < 1`) with nonnegative recorded forces,
and whose attackers' initial counts sum to at least 1, the total attacker
units left alive at resolution — every attacker leaves the transit list, and
on a capture the cell is credited `max(1, floor(survivors))` — never exceeds
the sum of `initialUnitCount` over the attackers.  (The `≥ 1` floor on the
sum is forced by `conservation_counterexample`.) -/
theorem updateBattles_conservation (st : GameState) (b : Battle) (c : Cell)
    (now : ℚ)
    (hb : st.battles = [b])
    (hc : findCell st.cells b.cellId = some c)
    (hdur : 0 < b.duration)
    (hnow : b.duration ≤ now - b.startTime)
    (hjp : ∀ a ∈ b.attackers, 0 ≤ attackerJoinProgress a ∧ attackerJoinProgress a < 1)
    (hinit : ∀ a ∈ b.attackers, 0 ≤ attackerInitialUnits a)
    (hsum : 1 ≤ (b.attackers.map attackerInitialUnits).sum)
    (hdefI : 0 ≤ jsOr b.initialDefenderUnits c.units)
    (hbonus : 0 < jsOrNum c.ctype.defenseBonus 1) :
    (∀ u ∈ (updateBattles now st).1.units, ∀ a ∈ b.attackers, u.id ≠ a.id) ∧
    (∀ c2, findCell (updateBattles now st).1.cells b.cellId = some c2 →
      c2.owner ≠ c.owner →
      c2.units ≤ (b.attackers.map attackerInitialUnits).sum) := by
  have hdiv : (1:ℚ) ≤ (now - b.startTime) / b.duration := (one_le_div hdur).mpr hnow
  have hp1 : ({ b with progress := min 1 ((now - b.startTime) / b.duration) } :
      Battle).progress = 1 := by
    show min 1 ((now - b.startTime) / b.duration) = 1
    exact min_eq_left hdiv
  set b1 : Battle := { b with progress := min 1 ((now - b.startTime) / b.duration) }
    with hb1
  have hcB : findCell st.cells b1.cellId = some c := hc
  obtain ⟨dmg, hatt_eq, howner, hid, hle, hpos0⟩ :=
    processBattleDamage_attacker_bounds st.cells b1 c hcB hp1 hjp hinit hsum hdefI hbonus
  set b2 := processBattleDamage st.cells b1 with hb2
  have hsurv : ∀ o : String, factionSurviving b2.attackers o ≤
      (b.attackers.map attackerInitialUnits).sum := by
    intro o
    rw [hatt_eq]
    exact factionSurviving_le_sum b.attackers dmg o howner hle hinit
  have hcC : findCell st.cells b2.cellId = some c := by
    rw [hb2, processBattleDamage_cellId]
    exact hc
  have haux := resolveBattle_conservation_aux st b2 c
    ((b.attackers.map attackerInitialUnits).sum) hcC hsurv hsum
  have hge : 1 ≤ b2.progress := by
    rw [hb2, processBattleDamage_progress]
    exact le_of_eq hp1.symm
  have hshape : updateBattles now st =
      ({ (resolveBattle st b2).1 with battles := [] },
       ["battle_progress"] ++ (resolveBattle st b2).2) := by
    simp only [updateBattles, hb, List.foldl_cons, List.foldl_nil, updateBattlesStep,
      ← hb1, ← hb2, if_pos hge, List.nil_append]
  rw [hshape]
  constructor
  · intro u hu a ha
    have hmem : dmg a ∈ b2.attackers := by
      rw [hatt_eq]
      exact List.mem_map_of_mem dmg ha
    have h2 := haux.1 u hu (dmg a) hmem
    rw [hid a] at h2
    exact fun h => h2 h.symm
  · intro c2 hc2' hne
    have hc2'' : findCell (resolveBattle st b2).1.cells b2.cellId = some c2 := by
      have hbc : b2.cellId = b.cellId := by rw [hb2, processBattleDamage_cellId]
      rw [hbc]
      exact hc2'
    exact haux.2 c2 hc2'' hne

/-- C5 counterexample: a battle joined by a single 0.5-unit attacker against
a 0.1-unit defender resolves by crediting the captured cell
`max(1, floor(0.4)) = 1` unit — more than the 0.5 units that ever joined,
refuting the conservation claim as stated. -/
theorem conservation_counterexample :
    (battle5.attackers.map attackerInitialUnits).sum = 1/2 ∧
    ((updateBattles 4000 st5).1.cells.map fun c => (c.owner, c.units)) =
      [("player", 1)] ∧
    (updateBattles 4000 st5).1.units = [] ∧
    ¬ ((1:ℚ) ≤ 1/2) := by
  refine ⟨by norm_num [battle5, unit5, attackerInitialUnits, jsOr], ?_, ?_, by norm_num⟩
  · norm_num [updateBattles, updateBattlesStep, processBattleDamage, damageAttacker,
      resolveBattle, st5, battle5, unit5, cell5, ctBasic, findCell,
      attackerCurrentForce, attackerInitialUnits, attackerJoinProgress, jsOr, jsOrNum,
      updateFirstCell, factionOwners, factionEffective, factionSurviving,
      attackerEffectiveForce, pickWinner, findFaction, winnerSurvivorsOf]
  · norm_num [updateBattles, updateBattlesStep, processBattleDamage, damageAttacker,
      resolveBattle, st5, battle5, unit5, cell5, ctBasic, findCell,
      attackerCurrentForce, attackerInitialUnits, attackerJoinProgress, jsOr, jsOrNum,
      updateFirstCell, factionOwners, factionEffective, factionSurviving,
      attackerEffectiveForce, pickWinner, findFaction, winnerSurvivorsOf]

/-- Witness for `updateBattles_conservation` at the Scenario A battle: the
captured cell's 4 credited units do not exceed the 6 units that joined. -/
theorem updateBattles_conservation_witness :
    ({ cellB with owner := "player", units := 4 } : Cell).units ≤
      (battleA.attackers.map attackerInitialUnits).sum := by
  have h := updateBattles_conservation stA1 battleA cellB 4000 rfl
    (by norm_num [findCell, stA1, cellA, cellB, battleA, ctBasic])
    (by norm_num [battleA])
    (by norm_num [battleA])
    (by simp [battleA, unitA1, attackerJoinProgress, jsOr])
    (by simp [battleA, unitA1, attackerInitialUnits, jsOr])
    (by norm_num [battleA, unitA1, attackerInitialUnits, jsOr])
    (by norm_num [battleA, cellB, jsOr])
    (by norm_num [cellB, ctBasic, jsOrNum])
  apply h.2
  · rw [scenarioA_resolve]
    norm_num [findCell, stA2, cellA, cellB, cellB2, ctBasic, battleA]
  · simp [cellB]


end Cellm
